import Mathlib

/-!
Shallow embedding of the vault-hunter client (Rust) for verification.

Sources embedded:
- src/error.rs         : the Error enum.
- src/config.rs        : Config (username field and the lowercasing accessor).
- src/runtime_info.rs  : setRuntimeInfo / getRuntimeInfo (token cache).
- src/vault_client.rs  : Client::login, loginNew, lookupToken,
  loginUsingCachedToken, logout, list, search, and the Path type.

Strings are modelled as lists of characters (Str).  Rust's
str::to_lowercase is modelled on the ASCII range (the only range the
claims exercise); other characters are left unchanged, matching Rust on
ASCII input.  JSON values (serde_json::Value) are modelled by the Json
inductive below, with serde's indexing semantics (missing field or
wrong shape indexes to Null).
-/

namespace VaultHunter

/-- Str is the model of Rust String / str slices: a list of characters. -/
abbrev Str : Type := List Char

/-- Conversion from a Lean string literal to the Str model. -/
def lit (s : String) : Str := s.toList

/-- Model of char::to_lowercase restricted to ASCII: map an upper-case
ASCII letter to its lower-case form and leave everything else alone. -/
def lowerChar (c : Char) : Char :=
  if 'A' ≤ c ∧ c ≤ 'Z' then Char.ofNat (c.toNat + 32) else c

/-- Model of str::to_lowercase (ASCII range): lower-case every character. -/
def lowerStr (s : Str) : Str := List.map lowerChar s

/-- Model of str::starts_with for string patterns: the first argument is
the pattern, the second the haystack. -/
def startsWithStr : Str → Str → Bool
  | [], _ => true
  | _ :: _, [] => false
  | a :: s, b :: t => a = b && startsWithStr s t

/-- Model of str::find(pattern).is_some(): does the haystack contain the
pattern as a contiguous substring?  First argument the haystack, second
the pattern. -/
def hasSubstr : Str → Str → Bool
  | hay, pat =>
    if startsWithStr pat hay then true
    else match hay with
      | [] => false
      | _ :: t => hasSubstr t pat

/-- The error type from src/error.rs: three string-carrying kinds. -/
inductive Error where
  | VaultError : Str → Error
  | HTTPError : Str → Error
  | RuntimeError : Str → Error
deriving DecidableEq

/-- Model of serde_json::Value. -/
inductive Json where
  | null : Json
  | bool : Bool → Json
  | num : Int → Json
  | str : Str → Json
  | arr : List Json → Json
  | obj : List (Str × Json) → Json

namespace Json

/-- Lookup of a field in the assoc-list of an object. -/
def fieldLookup : List (Str × Json) → Str → Option Json
  | [], _ => none
  | (k, v) :: rest, key => if k = key then some v else fieldLookup rest key

/-- Model of serde_json Value indexing by a string key (value["k"]):
on an object return the field or Null when absent; on any other shape
return Null. -/
def getField : Json → Str → Json
  | .obj fields, key =>
    match fieldLookup fields key with
    | some v => v
    | none => .null
  | _, _ => .null

/-- Model of serde_json Value indexing by an integer (value[0]): on an
array return the element or Null when out of bounds; on any other shape
return Null. -/
def getIdx : Json → Nat → Json
  | .arr xs, i => xs.getD i .null
  | _, _ => .null

/-- Model of Value::as_str. -/
def asStr : Json → Option Str
  | .str s => some s
  | _ => none

/-- Model of Value::get(key): Some(field) on an object that has the key,
None otherwise (also None on any non-object). -/
def getOpt : Json → Str → Option Json
  | .obj fields, key => fieldLookup fields key
  | _, _ => none

/-- Model of serde_json IndexMut assignment data[key] = v on the cache
object: auto-vivifies Null into an object, replaces an existing field in
place, appends a fresh one.  (serde_json panics on other shapes; the
cache file always holds a single JSON object or starts from the Null
default, so only these two shapes arise.) -/
def setField : List (Str × Json) → Str → Json → List (Str × Json)
  | [], key, v => [(key, v)]
  | (k, w) :: rest, key, v =>
    if k = key then (key, v) :: rest else (k, w) :: setField rest key v

/-- Assignment data[key] = v at the Value level (Null or object). -/
def setKey : Json → Str → Json → Json
  | .null, key, v => .obj [(key, v)]
  | .obj fields, key, v => .obj (setField fields key v)
  | other, _, _ => other

end Json

/-! ### Token cache (src/runtime_info.rs)

The cache file is modelled as `Option Json`: `none` when the file does
not exist, `some data` when it exists and holds the parsed value.  Path
resolution and I/O failure branches are not modelled; the claims are
about the data transformation. -/

/-- Model of runtime_info.rs setRuntimeInfo (lines 9-37): read the file
if it exists (default Null otherwise), assign data[key] to the string or
to Null when the value is None, and write the file back.  Returns the
new file contents. -/
def setRuntimeInfo (key : Str) (value : Option Str) (file : Option Json) :
    Option Json :=
  let data := match file with
    | none => Json.null
    | some d => d
  let data := match value with
    | some v => data.setKey key (.str v)
    | none => data.setKey key .null
  some data

/-- Model of runtime_info.rs getRuntimeInfo (lines 39-69): error when the
file does not exist; otherwise distinguish an absent key (Ok None) from a
present non-string key (error "Invalid runtime info") and a present
string key (Ok Some). -/
def getRuntimeInfo (key : Str) (file : Option Json) :
    Except Error (Option Str) :=
  match file with
  | none => .error (.RuntimeError (lit "No runtime info available"))
  | some data =>
    match data.getOpt key with
    | none => .ok none
    | some v =>
      match v.asStr with
      | some s => .ok (some s)
      | none => .error (.RuntimeError (lit "Invalid runtime info"))

/-! ### Config (src/config.rs) -/

/-- The fields of config.rs Config that the client requests use.  The
username field is stored raw, exactly as configured (it is a private
field in the Rust source). -/
structure Config where
  end_point : Str
  username : Str

/-- Model of config.rs Config::username() (lines 126-129): the
configured username in lower case.  (The Rust method shadows the private
field name; here it gets a distinct name.) -/
def Config.usernameLowercased (c : Config) : Str := lowerStr c.username

/-! ### Request URLs built by src/vault_client.rs

Each definition transliterates the format! call of the corresponding
method.  Note that loginNew, list and get interpolate the raw
self.config.username field, not the lowercasing accessor. -/

/-- URL built by Client::loginNew (vault_client.rs lines 243-244). -/
def loginURL (c : Config) : Str :=
  c.end_point ++ lit "v1/auth/userpass/login/" ++ c.username

/-- URL built by Client::list (vault_client.rs lines 309-310). -/
def listURL (c : Config) (path : Str) : Str :=
  c.end_point ++ lit "/v1/passwords/metadata/" ++ c.username ++ lit "/" ++ path

/-- URL built by Client::get (vault_client.rs lines 344-346). -/
def getURL (c : Config) (path : Str) : Str :=
  c.end_point ++ lit "/v1/passwords/data/" ++ c.username ++ lit "/" ++ path

/-! ### Listing (src/vault_client.rs Client::list) -/

/-- The KeyOrDir enum from vault_client.rs. -/
inductive KeyOrDir where
  | Key : Str → KeyOrDir
  | Dir : Str → KeyOrDir
deriving DecidableEq

/-- Classification of one raw listing item (vault_client.rs lines
325-336): a trailing separator makes a Dir with the last character
sliced off (item[..item.len()-1]), anything else is a Key unchanged. -/
def parseListItem (item : Str) : KeyOrDir :=
  if item.getLast? = some '/' then .Dir item.dropLast else .Key item

/-- Fail-fast collect of the item iterator of Client::list (lines
325-336): each array element must be a string, and is classified with
parseListItem; the first non-string element aborts with an error, as
collect over Result does. -/
def collectItems : List Json → Except Error (List KeyOrDir)
  | [] => .ok []
  | v :: rest =>
    match v.asStr with
    | some item =>
      match collectItems rest with
      | .ok tail => .ok (parseListItem item :: tail)
      | .error e => .error e
    | none => .error (.RuntimeError (lit "List item is not a string"))

/-- Model of Client::list applied to an already-parsed JSON response
body (vault_client.rs lines 305-337): surface an errors[0] string as a
VaultError; require data.keys to be an array; classify each item. -/
def listResult (res : Json) : Except Error (List KeyOrDir) :=
  match ((res.getField (lit "errors")).getIdx 0).asStr with
  | some msg => .error (.VaultError (lit "Failed to list: " ++ msg))
  | none =>
    match (res.getField (lit "data")).getField (lit "keys") with
    | .arr xs => collectItems xs
    | _ => .error (.RuntimeError (lit "List result is not a list"))

/-! ### Login (src/vault_client.rs) -/

/-- Outcome of a client call, distinguishing a Rust panic (unwrap on
None) from a returned Result. -/
inductive Outcome where
  | ok : Outcome
  | err : Error → Outcome
  | panicked : Outcome
deriving DecidableEq

/-- Outcome of Client::loginNew (vault_client.rs lines 240-258) on an
already-parsed login response body, together with the token it stores:
an errors[0] string is surfaced as a VaultError; otherwise the token is
read from auth.client_token via as_str (None when absent or non-string),
and setRuntimeInfo("token", Some(token.unwrap())) panics when that read
produced None. -/
def loginNewOutcome (res : Json) : Outcome × Option Str :=
  match ((res.getField (lit "errors")).getIdx 0).asStr with
  | some msg => (.err (.VaultError (lit "Failed to login: " ++ msg)), none)
  | none =>
    match ((res.getField (lit "auth")).getField (lit "client_token")).asStr with
    | some t => (.ok, some t)
    | none => (.panicked, none)

/-- The requests Client::login can cause, in the order they are sent. -/
inductive Req where
  | lookupSelf : Req
  | loginPost : Req
  | revokeSelf : Req
deriving DecidableEq

/-- Environment of one Client::login run: what the cache load, the token
self-lookup, the password prompt and the login endpoint would answer. -/
structure LoginEnv where
  /-- Result of Client::getRuntimeInfo("token") (vault_client.rs lines
  169-189), i.e. the cached token load in loginUsingCachedToken. -/
  cachedToken : Except Error Str
  /-- Result of Client::lookupToken (vault_client.rs lines 260-274). -/
  lookupRes : Except Error Unit
  /-- Result of the masked password read in loginPromptPassword. -/
  promptRes : Except Error Str
  /-- Parsed JSON body the login endpoint would return to loginNew. -/
  loginRes : Json

/-- Trace of one Client::login run. -/
structure LoginTrace where
  outcome : Outcome
  token : Option Str
  requests : List Req
  prompts : Nat
deriving DecidableEq

/-- Model of Client::login (vault_client.rs lines 289-303): if
loginUsingCachedToken succeeds (the cached token loads), set the token
and return Ok at once — no request is sent; otherwise try lookupToken
(one lookup-self request, sent with no token held); if that fails,
prompt for a password and run loginNew (one login request). -/
def login (env : LoginEnv) : LoginTrace :=
  match env.cachedToken with
  | .ok t => { outcome := .ok, token := some t, requests := [], prompts := 0 }
  | .error _ =>
    match env.lookupRes with
    | .ok _ =>
      { outcome := .ok, token := none, requests := [.lookupSelf], prompts := 0 }
    | .error _ =>
      match env.promptRes with
      | .error e =>
        { outcome := .err e, token := none, requests := [.lookupSelf],
          prompts := 1 }
      | .ok _ =>
        let (out, tok) := loginNewOutcome env.loginRes
        { outcome := out, token := tok,
          requests := [.lookupSelf, .loginPost], prompts := 1 }

/-! ### Logout (src/vault_client.rs Client::logout) -/

/-- The client state logout reads and writes: the in-memory token and
the cache file contents. -/
structure ClientState where
  token : Option Str
  cache : Option Json

/-- Trace of one Client::logout run. -/
structure LogoutTrace where
  result : Outcome
  state : ClientState
  warned : Bool
  requests : List Req

/-- Model of Client::logout (vault_client.rs lines 216-236), with the
revoke-self response status given by the environment: with no token held
it returns Ok immediately and sends nothing; otherwise it sends
revoke-self, prints a warning on status 403, errors on any 4xx/5xx other
than 403 (reqwest error_for_status), and on the remaining statuses (and
on 403) clears the in-memory token and assigns Null over the cached
token entry via setRuntimeInfo("token", None). -/
def logout (st : ClientState) (status : Nat) : LogoutTrace :=
  match st.token with
  | none => { result := .ok, state := st, warned := false, requests := [] }
  | some _ =>
    if status = 403 then
      { result := .ok,
        state := { token := none,
                   cache := setRuntimeInfo (lit "token") none st.cache },
        warned := true, requests := [.revokeSelf] }
    else if 400 ≤ status ∧ status ≤ 599 then
      { result := .err (.VaultError (lit "Failed to logout")),
        state := st, warned := false, requests := [.revokeSelf] }
    else
      { result := .ok,
        state := { token := none,
                   cache := setRuntimeInfo (lit "token") none st.cache },
        warned := false, requests := [.revokeSelf] }

/-! ### Search (src/vault_client.rs Client::search)

The Path type of vault_client.rs (lines 79-103) is a vector of
components with push/pushed; it is modelled as Path = List Str, with
pushed p n = p ++ [n].  (Display joins components with "/" to address
the listing endpoint; the store is modelled directly on component
lists, so the join is not needed.)

The remote store is modelled as the listing oracle the client sees: a
function from a path to the (already parsed and classified) entries
Client::list returns for it.  The while-loop of Client::search is
modelled with an explicit level counter; the code terminates exactly
when a frontier is empty, which, for a finite tree, happens once the
level passes the tree's depth (StoreBounded below). -/

/-- A path in the secret tree: the components vector of the Path struct. -/
abbrev TreePath : Type := List Str

/-- The store as seen through Client::list: entries of one directory. -/
def Store : Type := TreePath → List KeyOrDir

/-- The leaf-match test of Client::search (line 375):
name.to_lowercase().find(&snippet).is_some().  The leaf name is
lower-cased; the snippet is used verbatim. -/
def searchMatches (snippet name : Str) : Bool :=
  hasSubstr (lowerStr name) snippet

/-- Matching key paths one directory contributes to the result list:
the Key arm of the inner match of Client::search (lines 373-379). -/
def keysOfLevel (L : Store) (snippet : Str) (path : TreePath) :
    List TreePath :=
  (L path).filterMap fun item =>
    match item with
    | .Key name =>
      if searchMatches snippet name then some (path ++ [name]) else none
    | .Dir _ => none

/-- Sub-directory paths one directory contributes to the next frontier:
the Dir arm of the inner match of Client::search (lines 380-383). -/
def dirsOfLevel (L : Store) (path : TreePath) : List TreePath :=
  (L path).filterMap fun item =>
    match item with
    | .Key _ => none
    | .Dir name => some (path ++ [name])

/-- The while-loop of Client::search (lines 364-388), with fuel bounding
the number of iterations: stop on an empty frontier, otherwise append
this level's matching keys and recurse on the next frontier. -/
def searchGo (L : Store) (snippet : Str) : Nat → List TreePath → List TreePath
  | 0, _ => []
  | fuel + 1, to_search =>
    if to_search = [] then []
    else
      to_search.flatMap (keysOfLevel L snippet) ++
        searchGo L snippet fuel (to_search.flatMap (dirsOfLevel L))

/-- Model of Client::search (lines 358-390): breadth-first from the root
path.  fuel iterations suffice for any store of depth below fuel. -/
def search (L : Store) (snippet : Str) (fuel : Nat) : List TreePath :=
  searchGo L snippet fuel [[]]

/-- The frontier of the traversal at each level: level 0 is the root
alone, level n+1 holds the sub-directories discovered at level n. -/
def frontier (L : Store) : Nat → List TreePath
  | 0 => [[]]
  | n + 1 => (frontier L n).flatMap (dirsOfLevel L)

/-- The directory paths that exist in the tree: the root, and every
Dir entry below an existing directory. -/
inductive ReachableDir (L : Store) : TreePath → Prop where
  | root : ReachableDir L []
  | step {p : TreePath} {name : Str} : ReachableDir L p →
      KeyOrDir.Dir name ∈ L p → ReachableDir L (p ++ [name])

/-- A path addresses a leaf of the tree: a Key entry of an existing
directory. -/
def IsLeafPath (L : Store) (q : TreePath) : Prop :=
  ∃ p name, q = p ++ [name] ∧ ReachableDir L p ∧ KeyOrDir.Key name ∈ L p

/-- The tree is finite with depth below d: listing any path with at
least d components yields nothing. -/
def StoreBounded (L : Store) (d : Nat) : Prop :=
  ∀ p : TreePath, d ≤ p.length → L p = []

/-- The store is a strict hierarchy: no directory lists the same
sub-directory name twice. -/
def StoreWF (L : Store) : Prop :=
  ∀ p : TreePath, (dirsOfLevel L p).Nodup

/-! ### Concrete fixtures used by counterexamples and witnesses -/

/-- The end-to-end tree of the spec: directory a holding leaf b, and a
root leaf c. -/
def demoStore : Store := fun p =>
  if p = [] then [.Dir (lit "a"), .Key (lit "c")]
  else if p = [lit "a"] then [.Key (lit "b")]
  else []

/-- A tree with a single root leaf named Email. -/
def emailStore : Store := fun p =>
  if p = [] then [.Key (lit "Email")] else []

/-- A config whose configured username carries upper-case letters. -/
def demoConfig : Config :=
  { end_point := lit "https://vault.example/", username := lit "MetroWind" }

/-- A login environment whose token cache load succeeds. -/
def cachedEnv : LoginEnv :=
  { cachedToken := .ok (lit "cached-token"),
    lookupRes := .error (.HTTPError (lit "unreachable")),
    promptRes := .ok (lit "hunter2"),
    loginRes := Json.obj [] }

/-- A client state holding a token, with that token also cached. -/
def demoState : ClientState :=
  { token := some (lit "t"),
    cache := some (Json.obj [(lit "token", Json.str (lit "t"))]) }

/-- A well-formed listing response body: data.keys holding one
directory name and one key name. -/
def demoListRes : Json :=
  Json.obj [(lit "data",
    Json.obj [(lit "keys", Json.arr [Json.str (lit "a/"), Json.str (lit "b")])])]

/-! ### Helper lemmas -/

/-- An empty pattern is a substring of every haystack. -/
theorem hasSubstr_nil (hay : Str) : hasSubstr hay [] = true := by
  rw [hasSubstr.eq_def]
  simp [startsWithStr]

/-- The empty snippet matches every leaf name. -/
theorem searchMatches_nil (name : Str) : searchMatches [] name = true :=
  hasSubstr_nil (lowerStr name)

/-- Membership in the sub-directory contribution of one directory. -/
theorem mem_dirsOfLevel {L : Store} {p q : TreePath} :
    q ∈ dirsOfLevel L p ↔ ∃ name, KeyOrDir.Dir name ∈ L p ∧ q = p ++ [name] := by
  constructor
  · intro h
    rcases List.mem_filterMap.mp h with ⟨item, hitem, heq⟩
    cases item with
    | Key name => simp at heq
    | Dir name =>
      injection heq with h2
      exact ⟨name, hitem, h2.symm⟩
  · rintro ⟨name, hmem, rfl⟩
    exact List.mem_filterMap.mpr ⟨.Dir name, hmem, rfl⟩

/-- Membership in the matching-key contribution of one directory. -/
theorem mem_keysOfLevel {L : Store} {s : Str} {p q : TreePath} :
    q ∈ keysOfLevel L s p ↔
      ∃ name, KeyOrDir.Key name ∈ L p ∧ searchMatches s name = true ∧
        q = p ++ [name] := by
  constructor
  · intro h
    rcases List.mem_filterMap.mp h with ⟨item, hitem, heq⟩
    cases item with
    | Key name =>
      by_cases hm : searchMatches s name
      · simp only [hm, if_true] at heq
        injection heq with h2
        exact ⟨name, hitem, hm, h2.symm⟩
      · simp [hm] at heq
    | Dir name => simp at heq
  · rintro ⟨name, hmem, hm, rfl⟩
    exact List.mem_filterMap.mpr ⟨.Key name, hmem, by simp [hm]⟩

/-- Every path in the level-k frontier has exactly k components. -/
theorem length_of_mem_frontier {L : Store} {k : Nat} {p : TreePath}
    (h : p ∈ frontier L k) : p.length = k := by
  induction k generalizing p with
  | zero =>
    rw [frontier] at h
    simp at h
    simp [h]
  | succ k ih =>
    rw [frontier] at h
    rcases List.mem_flatMap.mp h with ⟨q, hq, hp⟩
    rcases mem_dirsOfLevel.mp hp with ⟨name, _, rfl⟩
    simp [ih hq]

/-- The level-k frontier holds exactly the existing directory paths of
depth k. -/
theorem mem_frontier_iff {L : Store} {k : Nat} {p : TreePath} :
    p ∈ frontier L k ↔ ReachableDir L p ∧ p.length = k := by
  induction k generalizing p with
  | zero =>
    rw [frontier]
    simp only [List.mem_singleton]
    constructor
    · rintro rfl
      exact ⟨.root, rfl⟩
    · rintro ⟨_, hlen⟩
      cases p with
      | nil => rfl
      | cons a t => simp at hlen
  | succ k ih =>
    rw [frontier]
    constructor
    · intro h
      rcases List.mem_flatMap.mp h with ⟨q, hq, hp⟩
      rcases mem_dirsOfLevel.mp hp with ⟨name, hmem, rfl⟩
      rcases ih.mp hq with ⟨hreach, hlen⟩
      exact ⟨.step hreach hmem, by simp [hlen]⟩
    · rintro ⟨hreach, hlen⟩
      cases hreach with
      | root => simp at hlen
      | @step q name hr hmem =>
        have hq : q ∈ frontier L k := ih.mpr ⟨hr, by simpa using hlen⟩
        exact List.mem_flatMap.mpr ⟨q, hq, mem_dirsOfLevel.mpr ⟨name, hmem, rfl⟩⟩

/-- Once a frontier is empty, all later frontiers are empty. -/
theorem frontier_eq_nil_add {L : Store} {j : Nat} (h : frontier L j = [])
    (k : Nat) : frontier L (j + k) = [] := by
  induction k with
  | zero => simpa using h
  | succ k ih =>
    have : j + (k + 1) = (j + k) + 1 := by omega
    rw [this, frontier, ih]
    rfl

/-- Unfolding the search loop level by level: a path is returned by the
loop started at the level-j frontier exactly when some level it still
reaches contributes it as a matching key. -/
theorem mem_searchGo_iff {L : Store} {s : Str} {fuel j : Nat} {q : TreePath} :
    q ∈ searchGo L s fuel (frontier L j) ↔
      ∃ k, k < fuel ∧ q ∈ (frontier L (j + k)).flatMap (keysOfLevel L s) := by
  induction fuel generalizing j with
  | zero => simp [searchGo]
  | succ fuel ih =>
    rw [searchGo]
    by_cases hnil : frontier L j = []
    · rw [if_pos hnil]
      simp only [List.not_mem_nil, false_iff]
      rintro ⟨k, _, hq⟩
      rw [frontier_eq_nil_add hnil k] at hq
      simp at hq
    · rw [if_neg hnil, List.mem_append]
      have hnext : (frontier L j).flatMap (dirsOfLevel L) = frontier L (j + 1) :=
        rfl
      rw [hnext, ih]
      constructor
      · rintro (h | ⟨k, hk, hq⟩)
        · exact ⟨0, Nat.succ_pos _, by simpa using h⟩
        · refine ⟨k + 1, Nat.succ_lt_succ hk, ?_⟩
          rw [show j + (k + 1) = j + 1 + k from by omega]
          exact hq
      · rintro ⟨k, hk, hq⟩
        cases k with
        | zero => exact Or.inl (by simpa using hq)
        | succ k =>
          refine Or.inr ⟨k, Nat.lt_of_succ_lt_succ hk, ?_⟩
          rw [show j + 1 + k = j + (k + 1) from by omega]
          exact hq

/-- The membership characterisation of Client::search on a finite
store: a path is returned exactly when it extends an existing directory
by a Key entry whose lower-cased name contains the snippet verbatim. -/
theorem mem_search_iff {L : Store} {d : Nat} (hb : StoreBounded L d) {s : Str}
    {q : TreePath} :
    q ∈ search L s (d + 1) ↔
      ∃ p name, q = p ++ [name] ∧ ReachableDir L p ∧
        KeyOrDir.Key name ∈ L p ∧ searchMatches s name = true := by
  have h0 : frontier L 0 = [[]] := rfl
  rw [search, ← h0, mem_searchGo_iff]
  constructor
  · rintro ⟨k, _, hq⟩
    rcases List.mem_flatMap.mp hq with ⟨p, hp, hkey⟩
    rcases mem_keysOfLevel.mp hkey with ⟨name, hmem, hmatch, rfl⟩
    have hreach := (mem_frontier_iff.mp hp).1
    exact ⟨p, name, rfl, hreach, hmem, hmatch⟩
  · rintro ⟨p, name, rfl, hreach, hmem, hmatch⟩
    have hlt : p.length < d := by
      by_contra hge
      have hempty := hb p (Nat.le_of_not_lt hge)
      rw [hempty] at hmem
      simp at hmem
    refine ⟨p.length, by omega, ?_⟩
    refine List.mem_flatMap.mpr
      ⟨p, ?_, mem_keysOfLevel.mpr ⟨name, hmem, hmatch, rfl⟩⟩
    exact mem_frontier_iff.mpr ⟨hreach, by simp⟩

/-- Under the strict-hierarchy assumption every frontier is
duplicate-free. -/
theorem frontier_nodup {L : Store} (hwf : StoreWF L) :
    ∀ k, (frontier L k).Nodup
  | 0 => by rw [frontier]; simp
  | k + 1 => by
    rw [frontier]
    refine List.nodup_flatMap.mpr ⟨fun p _ => hwf p, ?_⟩
    have hnd := frontier_nodup hwf k
    refine List.Pairwise.imp_of_mem ?_ hnd
    intro p p2 hp hp2 hne
    intro q hq hq2
    rcases mem_dirsOfLevel.mp hq with ⟨n1, _, rfl⟩
    rcases mem_dirsOfLevel.mp hq2 with ⟨n2, _, heq⟩
    have hl : p.length = p2.length := by
      rw [length_of_mem_frontier hp, length_of_mem_frontier hp2]
    exact hne (List.append_inj heq hl).1

/-- Replacing a field makes it the value found afterwards. -/
theorem fieldLookup_setField (fields : List (Str × Json)) (key : Str)
    (v : Json) : Json.fieldLookup (Json.setField fields key v) key = some v := by
  induction fields with
  | nil => simp [Json.setField, Json.fieldLookup]
  | cons kv rest ih =>
    by_cases h : kv.1 = key
    · simp [Json.setField, h, Json.fieldLookup]
    · simpa [Json.setField, h, Json.fieldLookup] using ih

/-- Collecting an all-strings item array classifies every name. -/
theorem collectItems_map_str (names : List Str) :
    collectItems (names.map Json.str) = .ok (names.map parseListItem) := by
  induction names with
  | nil => rfl
  | cons n rest ih => simp [collectItems, Json.asStr, ih]

/-- The demo store is a strict hierarchy. -/
theorem demoStoreWF : StoreWF demoStore := by
  intro p
  by_cases h0 : p = []
  · subst h0; decide
  · by_cases h1 : p = [lit "a"]
    · subst h1; decide
    · simp [dirsOfLevel, demoStore, h0, h1]

/-- The demo store has depth below 2. -/
theorem demoStoreBounded : StoreBounded demoStore 2 := by
  intro p hlen
  cases p with
  | nil => simp at hlen
  | cons a t =>
    cases t with
    | nil => simp at hlen
    | cons b r =>
      have h0 : a :: b :: r ≠ ([] : TreePath) := by simp
      have h1 : a :: b :: r ≠ [lit "a"] := by simp
      simp [demoStore, h0, h1]

/-- The email store has depth below 1. -/
theorem emailStoreBounded : StoreBounded emailStore 1 := by
  intro p hlen
  cases p with
  | nil => simp at hlen
  | cons a t =>
    have h0 : a :: t ≠ ([] : TreePath) := by simp
    simp [emailStore, h0]

/-! ### Claim theorems -/

/-- Claim C1 (code evidence): when the cached token loads successfully,
Client::login accepts the session immediately with the cached token —
it sends no request at all, in particular not the one token self-lookup
validation call the claim requires, and prompts for nothing. -/
theorem login_with_cached_token_skips_validation :
    (login cachedEnv).outcome = Outcome.ok ∧
    (login cachedEnv).token = some (lit "cached-token") ∧
    (login cachedEnv).prompts = 0 ∧
    (login cachedEnv).requests = [] ∧
    (login cachedEnv).requests ≠ [Req.lookupSelf] :=
  ⟨rfl, rfl, rfl, rfl, by decide⟩

/-- Claim C2 (code evidence): the login, metadata-list and data-get URLs
interpolate the raw configured username field, not its lower-casing, so
for the configured username MetroWind the username component sent
differs from the lower-cased username the Config accessor produces. -/
theorem request_urls_use_raw_username :
    demoConfig.username = lit "MetroWind" ∧
    demoConfig.usernameLowercased = lit "metrowind" ∧
    loginURL demoConfig =
      lit "https://vault.example/v1/auth/userpass/login/MetroWind" ∧
    loginURL demoConfig ≠
      demoConfig.end_point ++ lit "v1/auth/userpass/login/" ++
        demoConfig.usernameLowercased ∧
    listURL demoConfig (lit "x") ≠
      demoConfig.end_point ++ lit "/v1/passwords/metadata/" ++
        demoConfig.usernameLowercased ++ lit "/" ++ lit "x" ∧
    getURL demoConfig (lit "x") ≠
      demoConfig.end_point ++ lit "/v1/passwords/data/" ++
        demoConfig.usernameLowercased ++ lit "/" ++ lit "x" :=
  ⟨rfl, by decide, by decide, by decide, by decide, by decide⟩

/-- Claim C3 counterexample: the pattern is not lower-cased by search,
so a leaf named Email is not returned for the pattern Mail even though
the lower-casing of Email contains the lower-casing of Mail — the
claimed iff fails at this input. -/
theorem search_pattern_case_not_folded :
    hasSubstr (lowerStr (lit "Email")) (lowerStr (lit "Mail")) = true ∧
    searchMatches (lit "Mail") (lit "Email") = false ∧
    IsLeafPath emailStore [lit "Email"] ∧
    search emailStore (lit "Mail") 2 = [] :=
  ⟨by decide, by decide, ⟨[], lit "Email", rfl, .root, by decide⟩, by decide⟩

/-- Claim C3 (amended): a leaf is returned by search exactly when the
lower-casing of its name contains the pattern verbatim (the pattern
itself is not lower-cased); Email therefore matches the pattern mail
but not the pattern Mail. -/
theorem search_hit_iff_lowercased_name_has_snippet {L : Store} {d : Nat}
    (hb : StoreBounded L d) (s : Str) (q : TreePath) :
    q ∈ search L s (d + 1) ↔
      ∃ p name, q = p ++ [name] ∧ ReachableDir L p ∧
        KeyOrDir.Key name ∈ L p ∧ hasSubstr (lowerStr name) s = true :=
  mem_search_iff hb

/-- Witness for claim C3: on the concrete email store the bound holds
and the leaf Email is returned for the lower-case pattern mail. -/
theorem search_hit_iff_lowercased_name_has_snippet_witness :
    StoreBounded emailStore 1 ∧
    [lit "Email"] ∈ search emailStore (lit "mail") 2 := by
  refine ⟨emailStoreBounded, ?_⟩
  exact (search_hit_iff_lowercased_name_has_snippet emailStoreBounded
    (lit "mail") [lit "Email"]).mpr
    ⟨[], lit "Email", rfl, .root, by decide, by decide⟩

/-- Claim C4 (code evidence): on the malformed login response body that
carries neither an errors[0] string nor an auth.client_token string,
loginNew panics on the unwrap of the absent token instead of returning
a typed error. -/
theorem loginNew_malformed_response_panics :
    (((Json.obj []).getField (lit "errors")).getIdx 0).asStr = none ∧
    (((Json.obj []).getField (lit "auth")).getField
      (lit "client_token")).asStr = none ∧
    loginNewOutcome (Json.obj []) = (Outcome.panicked, none) :=
  ⟨rfl, rfl, rfl⟩

/-- Claim C5 counterexample: set(token, None) keeps the key, bound to
JSON null, and the subsequent get of the key reports an error, not a
missing value. -/
theorem set_none_leaves_null_entry :
    setRuntimeInfo (lit "token") none
        (some (Json.obj [(lit "token", Json.str (lit "t"))])) =
      some (Json.obj [(lit "token", Json.null)]) ∧
    getRuntimeInfo (lit "token")
        (setRuntimeInfo (lit "token") none
          (some (Json.obj [(lit "token", Json.str (lit "t"))]))) =
      .error (.RuntimeError (lit "Invalid runtime info")) :=
  ⟨rfl, rfl⟩

/-- Claim C5 (amended): for every key and every prior object contents,
set(key, None) writes JSON null over the key — the key stays present —
and a subsequent get of the same key returns the Invalid-runtime-info
error rather than a missing value. -/
theorem set_none_nulls_key_and_get_errors (key : Str)
    (fields : List (Str × Json)) :
    setRuntimeInfo key none (some (Json.obj fields)) =
      some (Json.obj (Json.setField fields key Json.null)) ∧
    Json.fieldLookup (Json.setField fields key Json.null) key =
      some Json.null ∧
    getRuntimeInfo key (setRuntimeInfo key none (some (Json.obj fields))) =
      .error (.RuntimeError (lit "Invalid runtime info")) := by
  refine ⟨rfl, fieldLookup_setField fields key Json.null, ?_⟩
  simp [getRuntimeInfo, setRuntimeInfo, Json.setKey, Json.getOpt,
    fieldLookup_setField, Json.asStr]

/-- Claim C6 counterexample: a 301 response is not a 2xx, yet logout
completes without error on it, against the claim that every non-2xx
response other than 403 is an error. -/
theorem logout_redirect_status_not_error :
    demoState.token = some (lit "t") ∧
    (301 < 200 ∨ 300 ≤ 301) ∧
    (logout demoState 301).result = Outcome.ok :=
  ⟨rfl, by decide, rfl⟩

/-- Claim C6 (amended): with a token held, logout on 403 succeeds with
only a warning, drops the in-memory token and writes null over the
cached token entry; on every 4xx or 5xx other than 403 it returns an
error and changes nothing; on any remaining status it also succeeds
and clears, with no warning. -/
theorem logout_status_behaviour (st : ClientState) (t : Str)
    (h : st.token = some t) (status : Nat) :
    (status = 403 →
      (logout st status).result = Outcome.ok ∧
      (logout st status).warned = true ∧
      (logout st status).state.token = none ∧
      (logout st status).state.cache =
        setRuntimeInfo (lit "token") none st.cache ∧
      (logout st status).requests = [Req.revokeSelf]) ∧
    (400 ≤ status → status ≤ 599 → status ≠ 403 →
      (logout st status).result =
        Outcome.err (.VaultError (lit "Failed to logout")) ∧
      (logout st status).warned = false ∧
      (logout st status).state.token = st.token ∧
      (logout st status).state.cache = st.cache) ∧
    ((status < 400 ∨ 600 ≤ status) → status ≠ 403 →
      (logout st status).result = Outcome.ok ∧
      (logout st status).warned = false ∧
      (logout st status).state.token = none ∧
      (logout st status).state.cache =
        setRuntimeInfo (lit "token") none st.cache) := by
  refine ⟨?_, ?_, ?_⟩
  · intro h403
    subst h403
    rw [logout.eq_def, h]
    simp
  · intro h1 h2 h3
    rw [logout.eq_def, h]
    rw [if_neg h3, if_pos ⟨h1, h2⟩]
    exact ⟨rfl, rfl, h, rfl⟩
  · intro hrange h403
    have hcond : ¬(400 ≤ status ∧ status ≤ 599) := by
      rcases hrange with h5 | h5 <;> omega
    rw [logout.eq_def, h]
    rw [if_neg h403, if_neg hcond]
    exact ⟨rfl, rfl, rfl, rfl⟩

/-- Witness for claim C6: on the demo state, logout at 403 succeeds with
a warning and logout at 404 errors. -/
theorem logout_status_behaviour_witness :
    demoState.token = some (lit "t") ∧
    (logout demoState 403).result = Outcome.ok ∧
    (logout demoState 403).warned = true ∧
    (logout demoState 404).result =
      Outcome.err (.VaultError (lit "Failed to logout")) := by
  have h403 := logout_status_behaviour demoState (lit "t") rfl 403
  have h404 := logout_status_behaviour demoState (lit "t") rfl 404
  exact ⟨rfl, (h403.1 rfl).1, (h403.1 rfl).2.1,
    (h404.2.1 (by omega) (by omega) (by omega)).1⟩

/-- Claim C7: on a listing response with no embedded error whose
data.keys is an array of strings, list classifies every name with no
loss: the result count equals the name count, a trailing-separator name
becomes a Dir with the separator stripped, and every other name becomes
a Key unchanged. -/
theorem list_partitions_names {res : Json} {names : List Str}
    (herr : ((res.getField (lit "errors")).getIdx 0).asStr = none)
    (hkeys : (res.getField (lit "data")).getField (lit "keys") =
      Json.arr (names.map Json.str)) :
    listResult res = .ok (names.map parseListItem) ∧
    (names.map parseListItem).length = names.length ∧
    (∀ name ∈ names, name.getLast? = some '/' →
      parseListItem name = .Dir name.dropLast ∧
      name.dropLast ++ ['/'] = name) ∧
    (∀ name ∈ names, name.getLast? ≠ some '/' →
      parseListItem name = .Key name) := by
  refine ⟨?_, by simp, ?_, ?_⟩
  · unfold listResult
    rw [herr, hkeys]
    exact collectItems_map_str names
  · intro name _ hlast
    refine ⟨?_, List.dropLast_append_getLast? _ hlast⟩
    unfold parseListItem
    rw [if_pos hlast]
  · intro name _ hlast
    unfold parseListItem
    rw [if_neg hlast]

/-- Witness for claim C7: the demo listing response with names a/ and b
yields exactly one Dir a and one Key b. -/
theorem list_partitions_names_witness :
    ((demoListRes.getField (lit "errors")).getIdx 0).asStr = none ∧
    (demoListRes.getField (lit "data")).getField (lit "keys") =
      Json.arr ([lit "a/", lit "b"].map Json.str) ∧
    listResult demoListRes =
      .ok [KeyOrDir.Dir (lit "a"), KeyOrDir.Key (lit "b")] := by
  refine ⟨rfl, rfl, ?_⟩
  exact (@list_partitions_names demoListRes [lit "a/", lit "b"] rfl rfl).1

/-- Claim C8: on every finite tree with at least one leaf, search with
the empty pattern returns every leaf path, at any nesting depth. -/
theorem search_empty_pattern_returns_all_leaves {L : Store} {d : Nat}
    (hb : StoreBounded L d) (hne : ∃ q0, IsLeafPath L q0) :
    ∀ q, IsLeafPath L q → q ∈ search L (lit "") (d + 1) := by
  rcases hne with ⟨q0, _⟩
  rintro q ⟨p, name, rfl, hreach, hmem⟩
  exact (mem_search_iff hb).mpr
    ⟨p, name, rfl, hreach, hmem, searchMatches_nil name⟩

/-- Witness for claim C8: on the demo tree both leaf paths a/b and c are
returned by the empty-pattern search. -/
theorem search_empty_pattern_returns_all_leaves_witness :
    StoreBounded demoStore 2 ∧
    IsLeafPath demoStore [lit "a", lit "b"] ∧
    IsLeafPath demoStore [lit "c"] ∧
    [lit "a", lit "b"] ∈ search demoStore (lit "") 3 ∧
    [lit "c"] ∈ search demoStore (lit "") 3 := by
  have hleaf1 : IsLeafPath demoStore [lit "a", lit "b"] :=
    ⟨[lit "a"], lit "b", rfl, .step .root (by decide), by decide⟩
  have hleaf2 : IsLeafPath demoStore [lit "c"] :=
    ⟨[], lit "c", rfl, .root, by decide⟩
  exact ⟨demoStoreBounded, hleaf1, hleaf2,
    search_empty_pattern_returns_all_leaves demoStoreBounded
      ⟨_, hleaf1⟩ _ hleaf1,
    search_empty_pattern_returns_all_leaves demoStoreBounded
      ⟨_, hleaf1⟩ _ hleaf2⟩

/-- Claim C9: in the breadth-first traversal no frontier repeats a path,
distinct frontiers never share a path, every enqueued path comes from a
Dir entry of the previous frontier (a Key is never enqueued), the
frontier one past the depth bound is empty, and the loop on an empty
frontier returns nothing more. -/
theorem search_traversal_invariants {L : Store} {d : Nat} (hwf : StoreWF L)
    (hb : StoreBounded L d) :
    (∀ k, (frontier L k).Nodup) ∧
    (∀ k j q, q ∈ frontier L k → q ∈ frontier L j → k = j) ∧
    (∀ k q, q ∈ frontier L (k + 1) →
      ∃ p name, p ∈ frontier L k ∧ KeyOrDir.Dir name ∈ L p ∧
        q = p ++ [name]) ∧
    frontier L (d + 1) = [] ∧
    (∀ s fuel, searchGo L s fuel [] = []) := by
  refine ⟨frontier_nodup hwf, ?_, ?_, ?_, ?_⟩
  · intro k j q hk hj
    rw [← length_of_mem_frontier hk, ← length_of_mem_frontier hj]
  · intro k q hq
    rw [frontier] at hq
    rcases List.mem_flatMap.mp hq with ⟨p, hp, hdir⟩
    rcases mem_dirsOfLevel.mp hdir with ⟨name, hmem, rfl⟩
    exact ⟨p, name, hp, hmem, rfl⟩
  · rw [frontier]
    refine List.eq_nil_iff_forall_not_mem.mpr ?_
    intro q hq
    rcases List.mem_flatMap.mp hq with ⟨p, hp, hdir⟩
    have hempty : L p = [] := hb p (length_of_mem_frontier hp).ge
    rcases mem_dirsOfLevel.mp hdir with ⟨name, hmem, _⟩
    rw [hempty] at hmem
    simp at hmem
  · intro s fuel
    cases fuel with
    | zero => rfl
    | succ fuel =>
      rw [searchGo]
      simp

/-- Witness for claim C9: the demo store satisfies both hypotheses and
its frontier after the depth bound is empty. -/
theorem search_traversal_invariants_witness :
    StoreWF demoStore ∧ StoreBounded demoStore 2 ∧
    frontier demoStore 3 = [] :=
  ⟨demoStoreWF, demoStoreBounded,
    (search_traversal_invariants demoStoreWF demoStoreBounded).2.2.2.1⟩

/-- Claim C10: logout with no token held returns Ok at once, sends no
request, emits no warning and leaves both the in-memory token and the
cached entry untouched. -/
theorem logout_without_token_is_noop (st : ClientState) (status : Nat)
    (h : st.token = none) :
    logout st status =
      { result := .ok, state := st, warned := false, requests := [] } := by
  rw [logout.eq_def, h]

/-- Witness for claim C10: the unauthenticated state with an intact
cache is left untouched by logout. -/
theorem logout_without_token_is_noop_witness :
    ({ token := none, cache := some (Json.obj []) } : ClientState).token
      = none ∧
    logout { token := none, cache := some (Json.obj []) } 500 =
      { result := .ok,
        state := { token := none, cache := some (Json.obj []) },
        warned := false, requests := [] } :=
  ⟨rfl, logout_without_token_is_noop
    { token := none, cache := some (Json.obj []) } 500 rfl⟩

end VaultHunter
